import Mathlib

/-
Verification of the core of `que.py`: a batch-scheduler queue reporter.
The job filter, the three metric converters, the table renderer and the
summary function are embedded shallowly below, translated clause by clause
from the source.  Python strings are modelled as Lean `String`,
`OrderedDict` as an insertion-ordered association list, Python `float`
arithmetic as exact fractions (the only formatted values the theorems rely
on are exact, so no binary-rounding discrepancy is involved), and every
operation that can raise an uncaught Python exception returns `Option` or
`Except`.
-/

namespace Que

/-- Python `s.split(c)` on a list of characters: splits at every occurrence
of `c`, keeping empty chunks, as `str.split` with an explicit separator does. -/
def splitOnChar (c : Char) : List Char → List (List Char)
  | [] => [[]]
  | a :: rest =>
    let r := splitOnChar c rest
    if a == c then [] :: r
    else
      match r with
      | h :: t => (a :: h) :: t
      | [] => [[a]]

/-- Substring test on character lists, the semantics of Python's `in` on
strings: `n` occurs contiguously inside the second list (the empty list
occurs in everything). -/
def isSubL : List Char → List Char → Bool
  | [], _ => true
  | _ :: _, [] => false
  | n, h :: t => List.isPrefixOf n (h :: t) || isSubL n t

/-- Python `needle in hay` for strings. -/
def strIn (needle hay : String) : Bool := isSubL needle.data hay.data

/-- Fueled worker for `pyReplace`.  The fuel starts at the length of the
list, which suffices because each step consumes at least one character of
the input when the pattern is non-empty. -/
def replaceFuel (pat rep : List Char) : Nat → List Char → List Char
  | 0, l => l
  | _ + 1, [] => []
  | fuel + 1, c :: rest =>
    if pat ≠ [] ∧ List.isPrefixOf pat (c :: rest) then
      rep ++ replaceFuel pat rep fuel (List.drop pat.length (c :: rest))
    else
      c :: replaceFuel pat rep fuel rest

/-- Python `s.replace(pat, rep)`: replace all non-overlapping occurrences,
scanning left to right.  (The source only ever calls it with a non-empty
pattern, which is the case modelled here.) -/
def pyReplace (s pat rep : String) : String :=
  String.mk (replaceFuel pat.data rep.data s.data.length s.data)

/-- ASCII lower-casing of one character, the behaviour of Python
`str.lower` on the ASCII unit/state strings this program handles. -/
def lowerChar (c : Char) : Char :=
  if 65 ≤ c.toNat ∧ c.toNat ≤ 90 then Char.ofNat (c.toNat + 32) else c

/-- ASCII upper-casing of one character, the behaviour of Python
`str.upper` on the ASCII state strings this program handles. -/
def upperChar (c : Char) : Char :=
  if 97 ≤ c.toNat ∧ c.toNat ≤ 122 then Char.ofNat (c.toNat - 32) else c

/-- Python `s.lower()` (ASCII range). -/
def pyLower (s : String) : String := String.mk (s.data.map lowerChar)

/-- Python `s.upper()` (ASCII range). -/
def pyUpper (s : String) : String := String.mk (s.data.map upperChar)

/-- The six characters Python `str.rstrip()` removes. -/
def isPySpace (c : Char) : Bool :=
  c == ' ' || c == '\t' || c == '\n' || c == '\x0d' || c == '\x0b' || c == '\x0c'

/-- Python `s.rstrip()`: drop trailing whitespace. -/
def pyRstrip (s : String) : String :=
  String.mk ((s.data.reverse.dropWhile isPySpace).reverse)

/-- Python `s.split(c)` returning strings. -/
def pySplit (s : String) (c : Char) : List String :=
  (splitOnChar c s.data).map String.mk

/-- Right-align `s` in a field of width `w` with spaces, as a Python
numeric format `%w.0f` does once the digits are produced. -/
def padLeft (w : Nat) (s : String) : String :=
  if w ≤ s.length then s
  else String.mk (List.replicate (w - s.length) ' ') ++ s

/-- Python `format(s, "^w")`: centre `s` in width `w`, extra space going to
the right. -/
def center (s : String) (w : Nat) : String :=
  if w ≤ s.length then s
  else
    let pad := w - s.length
    String.mk (List.replicate (pad / 2) ' ') ++ s ++
      String.mk (List.replicate (pad - pad / 2) ' ')

/-- Value of a list of decimal digit characters. -/
def digitsToNat (l : List Char) : Nat :=
  l.foldl (fun a c => a * 10 + (c.toNat - 48)) 0

/-- True when the list is a non-empty run of decimal digits. -/
def isDigits (l : List Char) : Bool :=
  !l.isEmpty && l.all (·.isDigit)

/-- Python `int(s)` on the character list of `s`: optional sign followed by
digits (the underscore/whitespace liberality of CPython is not needed by
any input this program meets). `none` is a `ValueError`. -/
def parsePyIntL : List Char → Option Int
  | [] => none
  | c :: rest =>
    if c == '-' then
      if isDigits rest then some (-(digitsToNat rest : Int)) else none
    else if c == '+' then
      if isDigits rest then some ((digitsToNat rest : Int)) else none
    else if isDigits (c :: rest) then some ((digitsToNat (c :: rest) : Int))
    else none

/-- Python `int(s)`. -/
def parsePyInt (s : String) : Option Int := parsePyIntL s.data

/-- Exact fraction standing in for a Python `float` value.  The program
only ever formats percentages whose exact value decides the claims at
stake, so fractions model the arithmetic faithfully there; `den` is kept
non-zero by every constructor the embedding uses. -/
structure PyF where
  num : Int
  den : Int
deriving DecidableEq

/-- Embed an integer. -/
def pfOfInt (n : Int) : PyF := ⟨n, 1⟩

/-- Fraction multiplication (unreduced). -/
def pfMul (a b : PyF) : PyF := ⟨a.num * b.num, a.den * b.den⟩

/-- Fraction division (unreduced).  Dividing by a zero value produces a
zero denominator; the embedding guards every division with the same
zero test Python performs (`ZeroDivisionError`). -/
def pfDiv (a b : PyF) : PyF := ⟨a.num * b.den, a.den * b.num⟩

/-- Python `float(s)` on an unsigned character list: digits, optionally a
dot with digit parts (at least one digit overall).  Scientific notation and
inf/nan are not produced by the scheduler's memory strings and are omitted. -/
def parseUnsignedFloatL (l : List Char) : Option PyF :=
  match splitOnChar '.' l with
  | [ip] => if isDigits ip then some ⟨(digitsToNat ip : Int), 1⟩ else none
  | [ip, fp] =>
    if (ip.isEmpty || ip.all (·.isDigit)) &&
        (fp.isEmpty || fp.all (·.isDigit)) && !(ip.isEmpty && fp.isEmpty) then
      some ⟨(digitsToNat ip : Int) * ((10 : Int) ^ fp.length) + (digitsToNat fp : Int),
            (10 : Int) ^ fp.length⟩
    else none
  | _ => none

/-- Python `float(s)`: optional sign, then an unsigned decimal numeral.
`none` is a `ValueError`. -/
def parsePyFloatL : List Char → Option PyF
  | [] => none
  | c :: rest =>
    if c == '-' then (parseUnsignedFloatL rest).map (fun f => ⟨-f.num, f.den⟩)
    else if c == '+' then parseUnsignedFloatL rest
    else parseUnsignedFloatL (c :: rest)

/-- Round a fraction to the nearest integer, ties to even: the rounding
Python's `%.0f` formatting applies. -/
def rhe (q : PyF) : Int :=
  let b : PyF := if q.den < 0 then ⟨-q.num, -q.den⟩ else q
  if b.den = 0 then 0
  else
    let f := Int.fdiv b.num b.den
    let r2 := 2 * (b.num - f * b.den)
    if r2 < b.den then f
    else if b.den < r2 then f + 1
    else if f % 2 = 0 then f else f + 1

/-- Python `f"[x:w.0f]"`: round to an integer and right-align in width `w`. -/
def formatF (w : Nat) (q : PyF) : String := padLeft w (toString (rhe q))

/-- A scheduler job name: the JSON payload carries either a string or a
numeric identifier. -/
inductive JName where
  | int (n : Int)
  | str (s : String)
deriving DecidableEq

/-- The string behind a (normalized) job name; an integer renders as its
decimal representation, matching Python `str(n)`. -/
def jnameStr : JName → String
  | .int n => toString n
  | .str s => s

/-- The `Resource_List` sub-record: the request fields the core reads. -/
structure ResourceList where
  mem : String
  ncpus : Int
  walltime : String
deriving DecidableEq

/-- The optional `resources_used` sub-record; each inner field is itself
optional so that a record lacking one of them is representable (Python
would raise `KeyError` on access, which the source catches in places). -/
structure ResourcesUsed where
  walltime : Option String
  cpupercent : Option Int
  mem : Option String
deriving DecidableEq

/-- One scheduler job record, with the attributes the core consumes.
`job_state` is optional so that a record missing it is representable. -/
structure Job where
  Job_Owner : String
  Job_Name : JName
  queue : String
  job_state : Option String
  Resource_List : ResourceList
  resources_used : Option ResourcesUsed
deriving DecidableEq

/-- `convert_walltime(used_walltime, total_walltime)` from `que.py`:
the first argument is the whole job (its `resources_used.walltime` is the
used time, defaulting to `"00:00:00"` when absent), the second the
`Resource_List` sub-record.  Splits both times on `:`, keeps the first two
components, and renders `used/total (pp%)` with the percentage of minutes
consumed.  `none` models the uncaught `IndexError` / `ValueError` /
`ZeroDivisionError` paths. -/
def convert_walltime (job : Job) (total : ResourceList) : Option String :=
  let used : String :=
    match job.resources_used with
    | none => "00:00:00"
    | some u => u.walltime.getD "00:00:00"
  let usedP := (pySplit used ':').take 2
  let totalP := (pySplit total.walltime ':').take 2
  match usedP, totalP with
  | [u0, u1], [t0, t1] =>
    match parsePyInt u0, parsePyInt u1, parsePyInt t0, parsePyInt t1 with
    | some a, some b, some c, some d =>
      let numer := a * 60 + b
      let denom := c * 60 + d
      if denom = 0 then none
      else
        some (String.intercalate ":" [u0, u1] ++ "/" ++
              String.intercalate ":" [t0, t1] ++ " (" ++
              formatF 2 (pfMul (pfOfInt 100) (pfDiv (pfOfInt numer) (pfOfInt denom))) ++ "%)")
    | _, _, _, _ => none
  | _, _ => none

/-- `convert_cpu_efficiency(used_cpus, total_cpus)` from `que.py`:
used CPU percent (0 when `resources_used` or its `cpupercent` is absent)
over `ncpus * 100`, as a width-3 integer percent string.  `none` is the
`ZeroDivisionError` when `ncpus` is 0. -/
def convert_cpu_efficiency (job : Job) (total : ResourceList) : Option String :=
  let used : Int :=
    match job.resources_used with
    | none => 0
    | some u => u.cpupercent.getD 0
  if total.ncpus * 100 = 0 then none
  else
    some (formatF 3 (pfMul (pfDiv (pfOfInt used) (pfOfInt (total.ncpus * 100))) (pfOfInt 100)) ++ "%")

/-- The used-memory integer of `convert_mem_efficiency`: strip `"kb"` then
`"b"` from `resources_used.mem` and parse; 0 when the sub-record or field
is absent (caught `KeyError`); `none` is the uncaught `ValueError`. -/
def memUsedVal (job : Job) : Option Int :=
  match job.resources_used with
  | none => some 0
  | some u =>
    match u.mem with
    | none => some 0
    | some s => parsePyIntL (pyReplace (pyReplace s "kb" "") "b" "").data

/-- Percent string of `used` over the total fraction `t`, the final return
of `convert_mem_efficiency`; `none` is the `ZeroDivisionError` when the
total is zero. -/
def memPct (used : Int) (t : PyF) : Option String :=
  if t.num = 0 then none
  else some (formatF 3 (pfMul (pfDiv (pfOfInt used) t) (pfOfInt 100)) ++ "%")

/-- `convert_mem_efficiency(used_mem, total_mem)` from `que.py`: the last
two characters of the requested-memory string select the unit, the part
before them is parsed with `float` (before the unit is examined, exactly as
in the source), `gb`/`mb` scale to kb, a `0b` suffix returns `"0%"`
immediately, anything else falls through at kb scale. -/
def convert_mem_efficiency (job : Job) (total : ResourceList) : Option String :=
  match memUsedVal job with
  | none => none
  | some used =>
    let d := total.mem.data
    let units : String := String.mk (d.drop (d.length - 2))
    match parsePyFloatL (d.take (d.length - 2)) with
    | none => none
    | some t0 =>
      if pyLower units == "gb" then memPct used (pfMul (pfMul t0 (pfOfInt 1024)) (pfOfInt 1024))
      else if pyLower units == "mb" then memPct used (pfMul t0 (pfOfInt 1024))
      else if pyLower units == "kb" then memPct used t0
      else if pyLower units == "0b" then some "0%"
      else memPct used t0

/-- The ways the filter pass can terminate the process: `shown` is the
`except TypeError` handler that prints the offending record and exits;
`uncaught` is any exception the handler does not catch (`KeyError` on a
missing field, `ValueError` / `ZeroDivisionError` / `IndexError` inside a
converter), which kills the process with a traceback instead. -/
inductive FErr where
  | shown (j : Job)
  | uncaught (msg : String)
deriving DecidableEq

/-- The state test of `filter_json`, line for line:
`state.upper() in job["job_state"]`. -/
def statePred (state job_state : String) : Bool :=
  strIn (pyUpper state) job_state

/-- The four-way retention test of `filter_json`, with Python's
short-circuit `and`: owner substring, queue substring, upper-cased state
substring, name substring.  Accessing a missing `job_state` raises an
uncaught `KeyError` (only `TypeError` is caught by the handler). -/
def jobPred (user queue state name : String) (j : Job) : Except FErr Bool :=
  if strIn user j.Job_Owner = false then .ok false
  else if strIn queue j.queue = false then .ok false
  else
    match j.job_state with
    | none => .error (.uncaught "KeyError: job_state")
    | some st =>
      if statePred state st = false then .ok false
      else .ok (strIn name (jnameStr j.Job_Name))

/-- The in-place normalization at the top of the loop body of
`filter_json`: an integer `Job_Name` is replaced by its decimal string. -/
def normJob (j : Job) : Job :=
  match j.Job_Name with
  | .int n => { j with Job_Name := .str (toString n) }
  | .str _ => j

/-- The column-width table (the `spacing` dict of `filter_json`), one field
per key. -/
structure Spacing where
  user : Nat
  queue : Nat
  state : Nat
  name : Nat
  mem : Nat
  ncpus : Nat
  jobid : Nat
  walltime : Nat
  cpu_efficiency : Nat
  mem_efficiency : Nat
deriving DecidableEq

/-- The initial `spacing` dict of `filter_json`. -/
def initSpacing (user queue : String) : Spacing :=
  { user := max 7 user.length
    queue := max 7 queue.length
    state := 5
    name := 7
    mem := 3
    ncpus := 4
    jobid := 8
    walltime := 8
    cpu_efficiency := ("CPU Eff.").length
    mem_efficiency := ("MEM Eff.").length }

/-- The seven running-maximum updates `filter_json` applies to `spacing`
for a retained record; a converter failure is the corresponding uncaught
exception. -/
def updateSpacing (sp : Spacing) (j : Job) : Except FErr Spacing :=
  match convert_walltime j j.Resource_List with
  | none => .error (.uncaught "exception in convert_walltime")
  | some wt =>
    match convert_cpu_efficiency j j.Resource_List with
    | none => .error (.uncaught "exception in convert_cpu_efficiency")
    | some ce =>
      match convert_mem_efficiency j j.Resource_List with
      | none => .error (.uncaught "exception in convert_mem_efficiency")
      | some me =>
        .ok { sp with
              name := max sp.name (jnameStr j.Job_Name).length
              mem := max sp.mem j.Resource_List.mem.length
              queue := max sp.queue j.queue.length
              walltime := max sp.walltime wt.length
              ncpus := max sp.ncpus (toString j.Resource_List.ncpus).length
              cpu_efficiency := max sp.cpu_efficiency ce.length
              mem_efficiency := max sp.mem_efficiency me.length }

/-- The scan of `filter_json` over the remaining records.  It returns the
retained mapping, the final widths, and the input mapping as it stands
after the pass (the loop normalizes each record's `Job_Name` in place, so
the caller's records are the normalized ones). -/
def filterGo (user queue state name : String) (sp : Spacing) :
    List (String × Job) → Except FErr (List (String × Job) × Spacing × List (String × Job))
  | [] => .ok ([], sp, [])
  | (jid, j0) :: rest =>
    let j := normJob j0
    match jobPred user queue state name j with
    | .error e => .error e
    | .ok false =>
      match filterGo user queue state name sp rest with
      | .error e => .error e
      | .ok (f, spf, inp) => .ok (f, spf, (jid, j) :: inp)
    | .ok true =>
      match updateSpacing sp j with
      | .error e => .error e
      | .ok sp1 =>
        match filterGo user queue state name sp1 rest with
        | .error e => .error e
        | .ok (f, spf, inp) => .ok ((jid, j) :: f, spf, (jid, j) :: inp)

/-- `filter_json(json_data, user, queue, state, name)` from `que.py`,
applied to the `"Jobs"` mapping (an insertion-ordered association list of
job id to record). -/
def filter_json (jobs : List (String × Job)) (user queue state name : String) :
    Except FErr (List (String × Job) × Spacing × List (String × Job)) :=
  filterGo user queue state name (initSpacing user queue) jobs

/-- The `+ 1` loop at the top of `generate_table`: Python mutates the
caller's `spacing` dict, adding one to every stored width. -/
def addOneSp (sp : Spacing) : Spacing :=
  { user := sp.user + 1
    queue := sp.queue + 1
    state := sp.state + 1
    name := sp.name + 1
    mem := sp.mem + 1
    ncpus := sp.ncpus + 1
    jobid := sp.jobid + 1
    walltime := sp.walltime + 1
    cpu_efficiency := sp.cpu_efficiency + 1
    mem_efficiency := sp.mem_efficiency + 1 }

/-- The header row of `generate_table`, ten centred labels between a green
escape code and a reset. -/
def headerStr (sp : Spacing) : String :=
  "\x1b[1;32;40m" ++ center "JobID" sp.jobid ++ center "JobName" sp.name ++
  center "Mem" sp.mem ++ center "CPUs" sp.ncpus ++ center "User" sp.user ++
  center "Queue" sp.queue ++ center "State" sp.state ++ center "Walltime" sp.walltime ++
  center "%CPU" sp.cpu_efficiency ++ center "%MEM" sp.mem_efficiency ++ "\x1b[00m\n"

/-- One data row of `generate_table` (without the alternating colour
prefix): job id with the `.pbs02` suffix substring removed, name, memory
request, cpu count, owner before the first `@`, queue, raw state, and the
three converted metrics, each centred.  `none` models the uncaught
exceptions of the converters and of a missing `job_state`. -/
def renderRow (sp : Spacing) (key : String) (j : Job) : Option String :=
  match convert_walltime j j.Resource_List with
  | none => none
  | some wt =>
    match convert_cpu_efficiency j j.Resource_List with
    | none => none
    | some ce =>
      match convert_mem_efficiency j j.Resource_List with
      | none => none
      | some me =>
        match j.job_state with
        | none => none
        | some st =>
          some (center (pyReplace key ".pbs02" "") sp.jobid ++
                center (jnameStr j.Job_Name) sp.name ++
                center j.Resource_List.mem sp.mem ++
                center (toString j.Resource_List.ncpus) sp.ncpus ++
                center ((pySplit j.Job_Owner '@').headD "") sp.user ++
                center j.queue sp.queue ++
                center st sp.state ++
                center wt sp.walltime ++
                center ce sp.cpu_efficiency ++
                center me sp.mem_efficiency ++ "\x1b[00m\n")

/-- The data rows of `generate_table`, alternating the colour prefix on the
parity of the zero-based row counter. -/
def tableRows (sp : Spacing) : Nat → List (String × Job) → Option String
  | _, [] => some ""
  | even, (key, v) :: rest =>
    match renderRow sp key v with
    | none => none
    | some row =>
      match tableRows sp (even + 1) rest with
      | none => none
      | some restS =>
        some ((if even % 2 = 0 then "\x1b[1;37;48m" else "\x1b[0;37;48m") ++ row ++ restS)

/-- `generate_table(json_data, spacing)` from `que.py`.  The second
component of the result is the spacing dict as the caller sees it
afterwards: the function increments every width by one in place before
laying out columns. -/
def generate_table (jobs : List (String × Job)) (sp0 : Spacing) :
    Option (String × Spacing) :=
  let sp := addOneSp sp0
  match tableRows sp 0 jobs with
  | none => none
  | some body => some (headerStr sp ++ body, sp)

/-- Association-list lookup, the semantics of a Python dict read (`none` is
a `KeyError`). -/
def getA : List (String × Nat) → String → Option Nat
  | [], _ => none
  | (k, v) :: t, key => if k == key then some v else getA t key

/-- Association-list write, the semantics of a Python dict assignment:
update the existing key in place, else append. -/
def setA : List (String × Nat) → String → Nat → List (String × Nat)
  | [], key, v => [(key, v)]
  | (k, w) :: t, key, v => if k == key then (key, v) :: t else (k, w) :: setA t key v

/-- One step of the per-queue count of `summarize_json`: increment, or
start at 1 on `KeyError`. -/
def queueStep (acc : List (String × Nat)) (j : Job) : List (String × Nat) :=
  match getA acc j.queue with
  | some v => setA acc j.queue (v + 1)
  | none => setA acc j.queue 1

/-- The per-queue counts of `summarize_json` over a job mapping. -/
def queueCounts (jobs : List (String × Job)) : List (String × Nat) :=
  jobs.foldl (fun acc p => queueStep acc p.2) []

/-- One step of the per-state count of `summarize_json`, keeping the dict
mechanics of the source: the old value is read at the raw state string
(`KeyError` falls to the `Other` bucket, as does a missing `job_state`),
while the assignment key is the right-stripped state.  `none` models the
uncaught `KeyError` were the `Other` key ever absent. -/
def stateStep (acc : List (String × Nat)) (j : Job) : Option (List (String × Nat)) :=
  match j.job_state with
  | none =>
    match getA acc "Other" with
    | some v => some (setA acc "Other" (v + 1))
    | none => none
  | some s =>
    match getA acc s with
    | some v => some (setA acc (pyRstrip s) (v + 1))
    | none =>
      match getA acc "Other" with
      | some v => some (setA acc "Other" (v + 1))
      | none => none

/-- The per-state counting loop of `summarize_json`. -/
def stateFold : List (String × Job) → List (String × Nat) → Option (List (String × Nat))
  | [], acc => some acc
  | p :: rest, acc =>
    match stateStep acc p.2 with
    | none => none
    | some acc1 => stateFold rest acc1

/-- Python `repr` of a string-to-int dict as f-string interpolation prints
it: quoted keys, `": "` and `", "` separators. -/
def dictRepr (l : List (String × Nat)) : String :=
  "\x7b" ++
    String.intercalate ", " (l.map (fun p => "\x27" ++ p.1 ++ "\x27: " ++ toString p.2)) ++
    "\x7d"

/-- `summarize_json(filtered_json)` from `que.py`.  The total is
`len(filtered_json)`, but the counting loop iterates the module-global
`json_data`, which is therefore a second, explicit parameter of the
embedding (in `__main__` the global has been rebound to the filtered
mapping before the call). -/
def summarize_json (filtered globalJobs : List (String × Job)) : Option String :=
  match stateFold globalJobs [("R", 0), ("Q", 0), ("Other", 0)] with
  | none => none
  | some sc =>
    some ("NumberOfJobs:" ++ toString filtered.length ++
          "  JobsPerQueue:" ++ dictRepr (queueCounts globalJobs) ++
          "  JobStates:" ++ dictRepr sc)

/-- Pointwise order on width tables: every column of `a` is at most the
corresponding column of `b`. -/
def spLe (a b : Spacing) : Prop :=
  a.user ≤ b.user ∧ a.queue ≤ b.queue ∧ a.state ≤ b.state ∧ a.name ≤ b.name ∧
  a.mem ≤ b.mem ∧ a.ncpus ≤ b.ncpus ∧ a.jobid ≤ b.jobid ∧ a.walltime ≤ b.walltime ∧
  a.cpu_efficiency ≤ b.cpu_efficiency ∧ a.mem_efficiency ≤ b.mem_efficiency

/-- Every column is at least as wide as the header label
`generate_table` prints in it. -/
def headerFits (sp : Spacing) : Prop :=
  ("JobID").length ≤ sp.jobid ∧ ("JobName").length ≤ sp.name ∧
  ("Mem").length ≤ sp.mem ∧ ("CPUs").length ≤ sp.ncpus ∧
  ("User").length ≤ sp.user ∧ ("Queue").length ≤ sp.queue ∧
  ("State").length ≤ sp.state ∧ ("Walltime").length ≤ sp.walltime ∧
  ("%CPU").length ≤ sp.cpu_efficiency ∧ ("%MEM").length ≤ sp.mem_efficiency

/-- The retained mapping of a completed filter run, `none` on a crash. -/
def getFiltered :
    Except FErr (List (String × Job) × Spacing × List (String × Job)) →
    Option (List (String × Job))
  | .ok r => some r.1
  | .error _ => none

/-- The caller's input mapping as it stands after a completed filter run. -/
def getFinalInput :
    Except FErr (List (String × Job) × Spacing × List (String × Job)) →
    Option (List (String × Job))
  | .ok r => some r.2.2
  | .error _ => none

/-- Whether the filter pass completed without terminating the process. -/
def isOkE {α : Type} : Except FErr α → Bool
  | .ok _ => true
  | .error _ => false

/-- A job with no `resources_used` sub-record and modest request fields. -/
def jobNoUse : Job :=
  ⟨"a@b", .str "x", "q", some "R", ⟨"1kb", 1, "1:00:00"⟩, none⟩

/-- The same job with the integer job name 7. -/
def jobIntName : Job :=
  ⟨"a@b", .int 7, "q", some "R", ⟨"1kb", 1, "1:00:00"⟩, none⟩

/-- A job owned by bob with the integer job name 5. -/
def jobIntFive : Job :=
  ⟨"bob@n", .int 5, "q", some "R", ⟨"1kb", 1, "1:00:00"⟩, none⟩

/-- A job whose `resources_used` sub-record is present but lacks all three
inner fields. -/
def jobEmptyUse : Job :=
  ⟨"a@b", .str "x", "q", some "R", ⟨"1kb", 1, "1:00:00"⟩, some ⟨none, none, none⟩⟩

/-- A requested-memory string of exactly `"0b"`. -/
def rl0b : ResourceList := ⟨"0b", 1, "1:00:00"⟩

/-- The width table `filter_json` produces for the single record
`jobNoUse` (and its variants above) under empty criteria. -/
def spacingOneJob : Spacing := ⟨7, 7, 5, 7, 3, 4, 8, 16, 8, 8⟩

theorem isSubL_nil (l : List Char) : isSubL [] l = true := by
  cases l <;> rfl

theorem strIn_nil (s : String) : strIn "" s = true := by
  show isSubL [] s.data = true
  exact isSubL_nil s.data

theorem splitOnChar_not_mem (c : Char) :
    ∀ (l : List Char), (∀ a ∈ l, (a == c) = false) → splitOnChar c l = [l] := by
  intro l
  induction l with
  | nil => intro _; rfl
  | cons a t ih =>
    intro h
    have ha : (a == c) = false := h a (List.mem_cons_self a t)
    have ht : splitOnChar c t = [t] := ih (fun x hx => h x (List.mem_cons_of_mem a hx))
    simp [splitOnChar, ha, ht]

theorem splitOnChar_append (c : Char) :
    ∀ (l r : List Char), (∀ a ∈ l, (a == c) = false) →
      splitOnChar c (l ++ c :: r) = l :: splitOnChar c r := by
  intro l
  induction l with
  | nil =>
    intro r _
    simp [splitOnChar]
  | cons a t ih =>
    intro r h
    have ha : (a == c) = false := h a (List.mem_cons_self a t)
    have ht := ih r (fun x hx => h x (List.mem_cons_of_mem a hx))
    simp [splitOnChar, ha, ht]

theorem digit_not_special {c : Char} (h : c.isDigit = true) :
    (c == '-') = false ∧ (c == '+') = false ∧ (c == '.') = false := by
  refine ⟨?_, ?_, ?_⟩ <;> {
    rw [beq_eq_false_iff_ne]
    intro hc
    subst hc
    exact absurd h (by decide) }

theorem parsePyFloatL_digits (l : List Char) (h0 : l ≠ [])
    (hd : ∀ c ∈ l, c.isDigit = true) :
    parsePyFloatL l = some ⟨(digitsToNat l : Int), 1⟩ := by
  cases l with
  | nil => exact absurd rfl h0
  | cons c rest =>
    have hc := hd c (List.mem_cons_self c rest)
    obtain ⟨hm, hp, _⟩ := digit_not_special hc
    have hsplit : splitOnChar '.' (c :: rest) = [c :: rest] :=
      splitOnChar_not_mem '.' (c :: rest) (fun a ha => (digit_not_special (hd a ha)).2.2)
    have hdig : isDigits (c :: rest) = true := by
      simp only [isDigits, Bool.and_eq_true, List.all_eq_true]
      exact ⟨by simp, fun a ha => hd a ha⟩
    simp [parsePyFloatL, hm, hp, parseUnsignedFloatL, hsplit, hdig]

/-- Claim C2 (code_bug): the spec says a requested memory of exactly
`"0b"` yields the literal `"0%"`, and the source has a dedicated branch
`units.lower() == "0b"` returning it; but `float(total_mem[0:len-2])`
runs first and raises `ValueError: could not convert string to float: ''`
on the two-character input, so the process crashes before the branch is
reached.  The theorem evaluates the embedded converter at the failing
input for every job. -/
theorem c2_mem_0b_valueerror :
    convert_mem_efficiency jobNoUse rl0b = none ∧
    ∀ j : Job, convert_mem_efficiency j rl0b = none := by
  refine ⟨by decide, fun j => ?_⟩
  unfold convert_mem_efficiency
  cases h : memUsedVal j with
  | none => rfl
  | some u => rfl

/-- Claim C10 (confirmed): `convert_mem_efficiency` selects the unit
branch by the final two characters of the requested-memory string alone,
after parsing (and, in the `0b` case, discarding) the numeric part before
them: every requested-memory string consisting of a non-empty numeral
followed by the characters `0b` (such as `"100b"`, `"20b"`) yields the
literal `"0%"`, whatever the used memory is (any job whose used-memory
field parses at all). -/
theorem c10_trailing_0b_unit (j : Job) (t : String) (n : Int) (w : String)
    (hu : memUsedVal j ≠ none) (h0 : t.data ≠ [])
    (hd : ∀ c ∈ t.data, c.isDigit = true) :
    convert_mem_efficiency j ⟨t ++ "0b", n, w⟩ = some "0%" := by
  obtain ⟨u, hm⟩ := Option.ne_none_iff_exists'.mp hu
  have hdata : (t ++ "0b").data = t.data ++ ['0', 'b'] := by
    rw [String.data_append]
  have hlen : (t.data ++ ['0', 'b']).length - 2 = t.data.length := by simp
  have htake : (t.data ++ ['0', 'b']).take t.data.length = t.data :=
    List.take_left t.data ['0', 'b']
  have hdrop : (t.data ++ ['0', 'b']).drop t.data.length = ['0', 'b'] :=
    List.drop_left t.data ['0', 'b']
  have hparse := parsePyFloatL_digits t.data h0 hd
  have e1 : (pyLower (String.mk ['0', 'b']) == "gb") = false := by decide
  have e2 : (pyLower (String.mk ['0', 'b']) == "mb") = false := by decide
  have e3 : (pyLower (String.mk ['0', 'b']) == "kb") = false := by decide
  have e4 : (pyLower (String.mk ['0', 'b']) == "0b") = true := by decide
  unfold convert_mem_efficiency
  rw [hm]
  simp only [hdata, hlen, htake, hdrop, hparse, e1, e2, e3, e4,
    Bool.false_eq_true, if_false, if_true]

/-- Witness for C10 at the concrete requested memory `"10" ++ "0b"`
(that is, `"100b"`) with a job that has no usage data. -/
theorem c10_witness :
    convert_mem_efficiency jobNoUse ⟨"10" ++ "0b", 1, "1:00:00"⟩ = some "0%" :=
  c10_trailing_0b_unit jobNoUse "10" 1 "1:00:00" (by decide) (by decide)
    (by decide)

theorem rhe_zero (d : Int) (hd : d ≠ 0) : rhe ⟨0, d⟩ = 0 := by
  unfold rhe
  by_cases h1 : d < 0
  · rw [if_pos h1]
    simp only [neg_zero, Int.zero_fdiv, zero_mul, mul_zero, sub_zero]
    rw [if_neg (by omega : ¬ (-d = 0)), if_pos (by omega : (0 : Int) < -d)]
  · rw [if_neg h1]
    rw [if_neg hd]
    simp only [Int.zero_fdiv, zero_mul, mul_zero, sub_zero]
    rw [if_pos (by omega : (0 : Int) < d)]

theorem formatF_zero (d : Int) (hd : d ≠ 0) : formatF 3 ⟨0, d⟩ = "  0" := by
  unfold formatF
  rw [rhe_zero d hd]
  decide

theorem memPct_zero (t : PyF) (s : String) (hs : memPct 0 t = some s) :
    s = "  0%" := by
  unfold memPct at hs
  by_cases hz : t.num = 0
  · rw [if_pos hz] at hs
    exact absurd hs (by simp)
  · rw [if_neg hz] at hs
    have hv : pfMul (pfDiv (pfOfInt 0) t) (pfOfInt 100) = ⟨0, t.num⟩ := by
      simp [pfMul, pfDiv, pfOfInt]
    rw [hv, formatF_zero t.num hz] at hs
    have : "  0" ++ "%" = "  0%" := by decide
    rw [this] at hs
    exact (Option.some_inj.mp hs).symm

theorem pySplit_headD_of_append (p : String) (rest : List Char)
    (hp : ∀ a ∈ p.data, (a == '/') = false) :
    ((splitOnChar '/' (p.data ++ '/' :: rest)).map String.mk).headD "" = p := by
  rw [splitOnChar_append '/' p.data rest hp]
  rfl

/-- Claim C3 (counterexample): a concrete job with no `resources_used`
sub-record.  `convert_walltime` pads the default used time from the
two-character components of `"00:00:00"`, so the used portion of the
output is `"00:00"`, not the `"0:00"` the claim states. -/
theorem c3_counterexample :
    convert_walltime jobNoUse jobNoUse.Resource_List = some "00:00/1:00 ( 0%)" ∧
    (pySplit "00:00/1:00 ( 0%)" '/').headD "" = "00:00" ∧
    ("00:00" : String) ≠ "0:00" := by
  refine ⟨by decide, by decide, by decide⟩

/-- Claim C3 as amended: for every job lacking the `resources_used`
sub-record, whenever a converter completes without an uncaught exception,
`convert_cpu_efficiency` returns `"  0%"`, `convert_mem_efficiency`
returns a zero-percent string (`"  0%"`, or `"0%"` through the `0b`
branch), and the used portion of the `convert_walltime` output — the text
before the first `/` — is `"00:00"` (not `"0:00"`). -/
theorem c3_no_usage_amended (j : Job) (rl : ResourceList)
    (h : j.resources_used = none) :
    (∀ s, convert_cpu_efficiency j rl = some s → s = "  0%") ∧
    (∀ s, convert_mem_efficiency j rl = some s → s = "  0%" ∨ s = "0%") ∧
    (∀ s, convert_walltime j rl = some s → (pySplit s '/').headD "" = "00:00") := by
  refine ⟨?_, ?_, ?_⟩
  · intro s hs
    unfold convert_cpu_efficiency at hs
    rw [h] at hs
    by_cases hz : rl.ncpus * 100 = 0
    · rw [if_pos hz] at hs
      exact absurd hs (by simp)
    · rw [if_neg hz] at hs
      have hv : pfMul (pfDiv (pfOfInt 0) (pfOfInt (rl.ncpus * 100))) (pfOfInt 100) =
          (⟨0, rl.ncpus * 100⟩ : PyF) := by
        simp [pfMul, pfDiv, pfOfInt]
      rw [hv, formatF_zero _ hz] at hs
      have : "  0" ++ "%" = "  0%" := by decide
      rw [this] at hs
      exact (Option.some_inj.mp hs).symm
  · intro s hs
    have hm : memUsedVal j = some 0 := by
      unfold memUsedVal
      rw [h]
    simp only [convert_mem_efficiency, hm] at hs
    cases hp : parsePyFloatL (List.take (rl.mem.data.length - 2) rl.mem.data) with
    | none =>
      simp only [hp] at hs
      exact absurd hs (by simp)
    | some t0 =>
      simp only [hp] at hs
      by_cases e1 : (pyLower (String.mk (rl.mem.data.drop (rl.mem.data.length - 2))) == "gb") = true
      · rw [if_pos e1] at hs
        exact Or.inl (memPct_zero _ s hs)
      · rw [if_neg (by simpa using e1)] at hs
        by_cases e2 : (pyLower (String.mk (rl.mem.data.drop (rl.mem.data.length - 2))) == "mb") = true
        · rw [if_pos e2] at hs
          exact Or.inl (memPct_zero _ s hs)
        · rw [if_neg (by simpa using e2)] at hs
          by_cases e3 : (pyLower (String.mk (rl.mem.data.drop (rl.mem.data.length - 2))) == "kb") = true
          · rw [if_pos e3] at hs
            exact Or.inl (memPct_zero _ s hs)
          · rw [if_neg (by simpa using e3)] at hs
            by_cases e4 : (pyLower (String.mk (rl.mem.data.drop (rl.mem.data.length - 2))) == "0b") = true
            · rw [if_pos e4] at hs
              exact Or.inr (Option.some_inj.mp hs).symm
            · rw [if_neg (by simpa using e4)] at hs
              exact Or.inl (memPct_zero _ s hs)
  · intro s hs
    have hu : (pySplit "00:00:00" ':').take 2 = ["00", "00"] := by decide
    have h00 : parsePyInt "00" = some 0 := by decide
    cases htp : (pySplit rl.walltime ':').take 2 with
    | nil =>
      simp [convert_walltime, h, hu, htp] at hs
    | cons t0 tl =>
      cases tl with
      | nil =>
        simp [convert_walltime, h, hu, htp] at hs
      | cons t1 tl2 =>
        cases tl2 with
        | cons t2 tl3 =>
          simp [convert_walltime, h, hu, htp] at hs
        | nil =>
          cases hc : parsePyInt t0 with
          | none =>
            simp [convert_walltime, h, hu, htp, h00, hc] at hs
          | some c =>
            cases hdd : parsePyInt t1 with
            | none =>
              simp [convert_walltime, h, hu, htp, h00, hc, hdd] at hs
            | some d =>
              simp only [convert_walltime, h, hu, htp, h00, hc, hdd] at hs
              by_cases hz : c * 60 + d = 0
              · rw [if_pos hz] at hs
                exact absurd hs (by simp)
              · rw [if_neg hz] at hs
                have hi : String.intercalate ":" ["00", "00"] = "00:00" := by decide
                rw [hi] at hs
                have hsv := Option.some_inj.mp hs
                subst hsv
                show ((splitOnChar '/'
                  ("00:00" ++ "/" ++ String.intercalate ":" [t0, t1] ++ " (" ++
                    formatF 2 (pfMul (pfOfInt 100) (pfDiv (pfOfInt (0 * 60 + 0)) (pfOfInt (c * 60 + d)))) ++ "%)").data).map String.mk).headD "" = "00:00"
                have hslash : ("/" : String).data = ['/'] := rfl
                have hdat :
                    ("00:00" ++ "/" ++ String.intercalate ":" [t0, t1] ++ " (" ++
                      formatF 2 (pfMul (pfOfInt 100) (pfDiv (pfOfInt (0 * 60 + 0)) (pfOfInt (c * 60 + d)))) ++ "%)").data =
                    "00:00".data ++ '/' ::
                      ((String.intercalate ":" [t0, t1]).data ++ " (".data ++
                        (formatF 2 (pfMul (pfOfInt 100) (pfDiv (pfOfInt (0 * 60 + 0)) (pfOfInt (c * 60 + d))))).data ++ "%)".data) := by
                  simp [String.data_append, hslash]
                rw [hdat]
                rw [splitOnChar_append '/' ("00:00".data) _ (by decide)]
                rfl

/-- Witness for C3 at a concrete job without usage data: the theorem
applied to `jobNoUse` shows the used portion of the rendered walltime is
`"00:00"`. -/
theorem c3_witness :
    (pySplit "00:00/1:00 ( 0%)" '/').headD "" = "00:00" :=
  (c3_no_usage_amended jobNoUse jobNoUse.Resource_List rfl).2.2
    "00:00/1:00 ( 0%)" (by decide)

/-- Claim C4 (counterexample): with criterion `"r"` and record state
`"r"`, the case-insensitive comparison the claim describes succeeds, but
the code's state predicate — `state.upper() in job["job_state"]` — fails,
because only the criterion is upper-cased while the record keeps its
case. -/
theorem c4_counterexample :
    statePred "r" "r" = false ∧
    strIn (pyLower "r") (pyLower (pyRstrip "r")) = true := by
  exact ⟨by decide, by decide⟩

/-- Claim C4 as amended: the state predicate upper-cases the criterion and
tests it as a substring of the record's `job_state` exactly as stored —
the record's case stays significant and no whitespace is stripped — and,
with the other three criteria empty, retention by `filter_json` is decided
by exactly this test. -/
theorem c4_state_predicate_amended (crit jid : String) (j : Job) (st : String)
    (hst : j.job_state = some st)
    (f : List (String × Job)) (sp : Spacing) (inp : List (String × Job))
    (hok : filter_json [(jid, j)] "" "" crit "" = .ok (f, sp, inp)) :
    (f ≠ [] ↔ statePred crit st = true) ∧
    statePred crit st = strIn (pyUpper crit) st := by
  have h3 : (normJob j).job_state = j.job_state := by
    unfold normJob
    cases hn : j.Job_Name <;> rfl
  refine ⟨?_, rfl⟩
  by_cases hsp : statePred crit st = true
  · have hpred : jobPred "" "" crit "" (normJob j) = .ok true := by
      simp [jobPred, strIn_nil, h3, hst, hsp]
    simp only [filter_json, filterGo, hpred] at hok
    cases hup : updateSpacing (initSpacing "" "") (normJob j) with
    | error e =>
      simp only [hup] at hok
      exact absurd hok (by simp)
    | ok sp1 =>
      simp only [hup, filterGo] at hok
      simp only [Except.ok.injEq, Prod.mk.injEq] at hok
      obtain ⟨hf, _, _⟩ := hok
      subst hf
      simp [hsp]
  · have hpred : jobPred "" "" crit "" (normJob j) = .ok false := by
      simp [jobPred, strIn_nil, h3, hst]
      simp only [Bool.not_eq_true] at hsp
      exact hsp
    simp only [filter_json, filterGo, hpred] at hok
    simp only [Except.ok.injEq, Prod.mk.injEq] at hok
    obtain ⟨hf, _, _⟩ := hok
    subst hf
    simp [hsp]

/-- Witness for C4: a single job in state `"R"`, criterion `"r"`, for
which `filter_json` completes and retains the record, and the predicate
equals the raw uppercased-substring test. -/
theorem c4_witness :
    (([("w4", jobNoUse)] : List (String × Job)) ≠ [] ↔ statePred "r" "R" = true) ∧
    statePred "r" "R" = strIn (pyUpper "r") "R" :=
  c4_state_predicate_amended "r" "w4" jobNoUse "R" rfl
    [("w4", jobNoUse)] spacingOneJob [("w4", jobNoUse)] (by rfl)

theorem jobPred_empty (j : Job) (st : String) (hst : j.job_state = some st) :
    jobPred "" "" "" "" j = .ok true := by
  have hsp : statePred "" st = true := strIn_nil st
  simp [jobPred, strIn_nil, hst, hsp]

/-- The normalized record keeps string job names unchanged. -/
theorem normJob_str (j : Job) (s0 : String) (h : j.Job_Name = JName.str s0) :
    normJob j = j := by
  simp [normJob, h]

theorem filterGo_empty_all (jobs : List (String × Job)) :
    ∀ (sp : Spacing) (f : List (String × Job)) (spf : Spacing)
      (inp : List (String × Job)),
      filterGo "" "" "" "" sp jobs = .ok (f, spf, inp) →
      f = jobs.map (fun p => (p.1, normJob p.2)) ∧
      inp = jobs.map (fun p => (p.1, normJob p.2)) := by
  induction jobs with
  | nil =>
    intro sp f spf inp h
    simp only [filterGo, Except.ok.injEq, Prod.mk.injEq] at h
    obtain ⟨h1, _, h3⟩ := h
    simp [← h1, ← h3]
  | cons p rest ih =>
    intro sp f spf inp h
    obtain ⟨jid, j⟩ := p
    cases hst : (normJob j).job_state with
    | none =>
      have hpred : jobPred "" "" "" "" (normJob j) = .error (.uncaught "KeyError: job_state") := by
        simp [jobPred, strIn_nil, hst]
      simp [filterGo, hpred] at h
    | some st =>
      have hpred : jobPred "" "" "" "" (normJob j) = .ok true := jobPred_empty _ st hst
      simp only [filterGo, hpred] at h
      cases hup : updateSpacing sp (normJob j) with
      | error e =>
        simp [hup] at h
      | ok sp1 =>
        simp only [hup] at h
        cases hgo : filterGo "" "" "" "" sp1 rest with
        | error e =>
          simp [hgo] at h
        | ok trip =>
          obtain ⟨f1, spf1, inp1⟩ := trip
          simp only [hgo, Except.ok.injEq, Prod.mk.injEq] at h
          obtain ⟨hf, _, hinp⟩ := h
          obtain ⟨ihf, ihinp⟩ := ih sp1 f1 spf1 inp1 hgo
          subst ihf
          subst ihinp
          simp [← hf, ← hinp]

/-- Claim C1 (counterexample): with all four criteria empty, a single
record whose `Job_Name` is the integer 7 is retained, but not unchanged:
the loop rewrites the name to the string `"7"` before filtering, so the
output record differs from the input record. -/
theorem c1_counterexample :
    getFiltered (filter_json [("1", jobIntName)] "" "" "" "") =
      some [("1", ⟨"a@b", .str "7", "q", some "R", ⟨"1kb", 1, "1:00:00"⟩, none⟩)] ∧
    ([("1", (⟨"a@b", .str "7", "q", some "R", ⟨"1kb", 1, "1:00:00"⟩, none⟩ : Job))] :
        List (String × Job)) ≠ [("1", jobIntName)] := by
  exact ⟨by rfl, by decide⟩

/-- Claim C1 as amended: whenever `filter_json` with four empty criteria
completes without crashing, it retains every input record, in the input's
relative order, each unchanged except that an integer `Job_Name` has been
replaced by its decimal string (the source normalizes numeric names in
place before testing). -/
theorem c1_empty_criteria_amended (jobs : List (String × Job))
    (f : List (String × Job)) (spf : Spacing) (inp : List (String × Job))
    (hok : filter_json jobs "" "" "" "" = .ok (f, spf, inp)) :
    f = jobs.map (fun p => (p.1, normJob p.2)) ∧
    inp = jobs.map (fun p => (p.1, normJob p.2)) :=
  filterGo_empty_all jobs (initSpacing "" "") f spf inp hok

/-- Witness for C1: the one-record mapping with integer name 7 filters
successfully under empty criteria and returns exactly the normalized
records. -/
theorem c1_witness :
    ([("1", (⟨"a@b", .str "7", "q", some "R", ⟨"1kb", 1, "1:00:00"⟩, none⟩ : Job))] :
        List (String × Job)) =
      [("1", jobIntName)].map (fun p => (p.1, normJob p.2)) :=
  (c1_empty_criteria_amended [("1", jobIntName)]
    [("1", ⟨"a@b", .str "7", "q", some "R", ⟨"1kb", 1, "1:00:00"⟩, none⟩)]
    spacingOneJob
    [("1", ⟨"a@b", .str "7", "q", some "R", ⟨"1kb", 1, "1:00:00"⟩, none⟩)]
    (by rfl)).1

theorem filterGo_input_norm (u q s n : String) (jobs : List (String × Job)) :
    ∀ (sp : Spacing) (f : List (String × Job)) (spf : Spacing)
      (inp : List (String × Job)),
      filterGo u q s n sp jobs = .ok (f, spf, inp) →
      inp = jobs.map (fun p => (p.1, normJob p.2)) := by
  induction jobs with
  | nil =>
    intro sp f spf inp h
    simp only [filterGo, Except.ok.injEq, Prod.mk.injEq] at h
    obtain ⟨_, _, h3⟩ := h
    simp [← h3]
  | cons p rest ih =>
    intro sp f spf inp h
    obtain ⟨jid, j⟩ := p
    cases hpr : jobPred u q s n (normJob j) with
    | error e =>
      simp [filterGo, hpr] at h
    | ok b =>
      cases b with
      | false =>
        simp only [filterGo, hpr] at h
        cases hgo : filterGo u q s n sp rest with
        | error e =>
          simp [hgo] at h
        | ok trip =>
          obtain ⟨f1, spf1, inp1⟩ := trip
          simp only [hgo, Except.ok.injEq, Prod.mk.injEq] at h
          obtain ⟨_, _, hinp⟩ := h
          have ihinp := ih sp f1 spf1 inp1 hgo
          subst ihinp
          simp [← hinp]
      | true =>
        simp only [filterGo, hpr] at h
        cases hup : updateSpacing sp (normJob j) with
        | error e =>
          simp [hup] at h
        | ok sp1 =>
          simp only [hup] at h
          cases hgo : filterGo u q s n sp1 rest with
          | error e =>
            simp [hgo] at h
          | ok trip =>
            obtain ⟨f1, spf1, inp1⟩ := trip
            simp only [hgo, Except.ok.injEq, Prod.mk.injEq] at h
            obtain ⟨_, _, hinp⟩ := h
            have ihinp := ih sp1 f1 spf1 inp1 hgo
            subst ihinp
            simp [← hinp]

/-- Claim C9 (counterexample): a record with integer `Job_Name` 5 that
does not even match the criteria (owner filter `"zzz"`) still comes out of
the pass with its name field rewritten to the string `"5"`: the filtering
pass does change input job records. -/
theorem c9_counterexample :
    getFinalInput (filter_json [("2", jobIntFive)] "zzz" "" "" "") =
      some [("2", ⟨"bob@n", .str "5", "q", some "R", ⟨"1kb", 1, "1:00:00"⟩, none⟩)] ∧
    ([("2", (⟨"bob@n", .str "5", "q", some "R", ⟨"1kb", 1, "1:00:00"⟩, none⟩ : Job))] :
        List (String × Job)) ≠ [("2", jobIntFive)] := by
  exact ⟨by rfl, by decide⟩

/-- Claim C9 as amended: a completed filtering pass leaves every input
record unchanged except for the in-place `Job_Name` normalization — after
the pass the input mapping is exactly the original with every integer name
replaced by its decimal string, and records whose name is already a string
are untouched. -/
theorem c9_input_mutation_amended (jobs : List (String × Job)) (u q s n : String)
    (f : List (String × Job)) (spf : Spacing) (inp : List (String × Job))
    (hok : filter_json jobs u q s n = .ok (f, spf, inp)) :
    inp = jobs.map (fun p => (p.1, normJob p.2)) ∧
    ∀ p ∈ jobs, (∃ s0, p.2.Job_Name = JName.str s0) → normJob p.2 = p.2 := by
  refine ⟨filterGo_input_norm u q s n jobs (initSpacing u q) f spf inp hok, ?_⟩
  intro p _ hstr
  obtain ⟨s0, hs0⟩ := hstr
  exact normJob_str p.2 s0 hs0

/-- Witness for C9: the non-matching one-record run with owner criterion
`"zzz"` completes, and the post-pass input is the normalized mapping. -/
theorem c9_witness :
    ([("2", (⟨"bob@n", .str "5", "q", some "R", ⟨"1kb", 1, "1:00:00"⟩, none⟩ : Job))] :
        List (String × Job)) =
      [("2", jobIntFive)].map (fun p => (p.1, normJob p.2)) :=
  (c9_input_mutation_amended [("2", jobIntFive)] "zzz" "" "" "" []
    (initSpacing "zzz" "")
    [("2", ⟨"bob@n", .str "5", "q", some "R", ⟨"1kb", 1, "1:00:00"⟩, none⟩)]
    (by rfl)).1

theorem spLe_refl (a : Spacing) : spLe a a := by
  unfold spLe
  omega

theorem spLe_trans {a b c : Spacing} (h1 : spLe a b) (h2 : spLe b c) : spLe a c := by
  unfold spLe at h1 h2 ⊢
  omega

theorem updateSpacing_mono (sp : Spacing) (j : Job) (sp1 : Spacing)
    (h : updateSpacing sp j = .ok sp1) : spLe sp sp1 := by
  unfold updateSpacing at h
  cases h1 : convert_walltime j j.Resource_List with
  | none => simp [h1] at h
  | some wt =>
    simp only [h1] at h
    cases h2 : convert_cpu_efficiency j j.Resource_List with
    | none => simp [h2] at h
    | some ce =>
      simp only [h2] at h
      cases h3 : convert_mem_efficiency j j.Resource_List with
      | none => simp [h3] at h
      | some me =>
        simp only [h3, Except.ok.injEq] at h
        subst h
        exact ⟨le_refl _, Nat.le_max_left _ _, le_refl _, Nat.le_max_left _ _,
          Nat.le_max_left _ _, Nat.le_max_left _ _, le_refl _, Nat.le_max_left _ _,
          Nat.le_max_left _ _, Nat.le_max_left _ _⟩

theorem filterGo_spacing_mono (u q s n : String) (jobs : List (String × Job)) :
    ∀ (sp : Spacing) (f : List (String × Job)) (spf : Spacing)
      (inp : List (String × Job)),
      filterGo u q s n sp jobs = .ok (f, spf, inp) → spLe sp spf := by
  induction jobs with
  | nil =>
    intro sp f spf inp h
    simp only [filterGo, Except.ok.injEq, Prod.mk.injEq] at h
    obtain ⟨_, h2, _⟩ := h
    rw [← h2]
    exact spLe_refl sp
  | cons p rest ih =>
    intro sp f spf inp h
    obtain ⟨jid, j⟩ := p
    cases hpr : jobPred u q s n (normJob j) with
    | error e => simp [filterGo, hpr] at h
    | ok b =>
      cases b with
      | false =>
        simp only [filterGo, hpr] at h
        cases hgo : filterGo u q s n sp rest with
        | error e => simp [hgo] at h
        | ok trip =>
          obtain ⟨f1, spf1, inp1⟩ := trip
          simp only [hgo, Except.ok.injEq, Prod.mk.injEq] at h
          obtain ⟨_, h2, _⟩ := h
          rw [← h2]
          exact ih sp f1 spf1 inp1 hgo
      | true =>
        simp only [filterGo, hpr] at h
        cases hup : updateSpacing sp (normJob j) with
        | error e => simp [hup] at h
        | ok sp1 =>
          simp only [hup] at h
          cases hgo : filterGo u q s n sp1 rest with
          | error e => simp [hgo] at h
          | ok trip =>
            obtain ⟨f1, spf1, inp1⟩ := trip
            simp only [hgo, Except.ok.injEq, Prod.mk.injEq] at h
            obtain ⟨_, h2, _⟩ := h
            rw [← h2]
            exact spLe_trans (updateSpacing_mono sp (normJob j) sp1 hup)
              (ih sp1 f1 spf1 inp1 hgo)

theorem headerFits_init (u q : String) : headerFits (initSpacing u q) := by
  refine ⟨(by decide : (5 : Nat) ≤ 8), (by decide : (7 : Nat) ≤ 7),
    (by decide : (3 : Nat) ≤ 3), (by decide : (4 : Nat) ≤ 4), ?_, ?_,
    (by decide : (5 : Nat) ≤ 5), (by decide : (8 : Nat) ≤ 8),
    (by decide : (4 : Nat) ≤ 8), (by decide : (4 : Nat) ≤ 8)⟩
  · exact Nat.le_trans (by decide) (Nat.le_max_left 7 u.length)
  · exact Nat.le_trans (by decide) (Nat.le_max_left 7 q.length)

theorem headerFits_mono {a b : Spacing} (hf : headerFits a) (hle : spLe a b) :
    headerFits b := by
  unfold headerFits at hf ⊢
  unfold spLe at hle
  omega

/-- Claim C5 (confirmed): during the single scan of `filter_json` every
width update is a running maximum, so each entry of the width table is
monotonically non-decreasing; on completion every column's final width is
at least that column's header label length; and the `user` and `queue`
widths start pre-seeded at `max(7, length of the corresponding filter
string)`. -/
theorem c5_spacing_invariants :
    (∀ (sp : Spacing) (j : Job) (sp1 : Spacing),
        updateSpacing sp j = .ok sp1 → spLe sp sp1) ∧
    (∀ (jobs : List (String × Job)) (u q s n : String)
        (f : List (String × Job)) (spf : Spacing) (inp : List (String × Job)),
        filter_json jobs u q s n = .ok (f, spf, inp) →
        spLe (initSpacing u q) spf ∧ headerFits spf) ∧
    (∀ u q : String,
        (initSpacing u q).user = max 7 u.length ∧
        (initSpacing u q).queue = max 7 q.length) := by
  refine ⟨updateSpacing_mono, ?_, fun u q => ⟨rfl, rfl⟩⟩
  intro jobs u q s n f spf inp hok
  have hm := filterGo_spacing_mono u q s n jobs (initSpacing u q) f spf inp hok
  exact ⟨hm, headerFits_mono (headerFits_init u q) hm⟩

/-- Witness for C5: a one-record run under empty criteria completes with
the width table `spacingOneJob`, which dominates the seeds and fits every
header label. -/
theorem c5_witness :
    spLe (initSpacing "" "") spacingOneJob ∧ headerFits spacingOneJob :=
  c5_spacing_invariants.2.1 [("1", jobNoUse)] "" "" "" ""
    [("1", jobNoUse)] spacingOneJob [("1", jobNoUse)] (by rfl)

/-- Claim C6 (counterexample): a record whose `resources_used` sub-record
is present but lacks all of `walltime`, `cpupercent` and `mem` — fields a
conversion would need — is not reported as a fatal error: `filter_json`
completes and retains the record, silently defaulting the missing fields
to zero usage (the source catches the `KeyError` inside each converter). -/
theorem c6_counterexample :
    isOkE (filter_json [("j6", jobEmptyUse)] "" "" "" "") = true ∧
    getFiltered (filter_json [("j6", jobEmptyUse)] "" "" "" "") =
      some [("j6", jobEmptyUse)] := by
  exact ⟨by rfl, by rfl⟩

/-- Claim C6 as amended: a record whose `resources_used` sub-record lacks
the `walltime`, `cpupercent` and `mem` fields is treated exactly as one
with no usage data at all — each converter returns the same value as for
the record with `resources_used` removed — and `filter_json` raises no
error for it: when the record matches and its conversions succeed, the
pass completes and retains it.  (Only a `TypeError` triggers the
print-the-record-and-exit handler; a missing top-level field such as
`job_state` aborts with an uncaught `KeyError` instead.) -/
theorem c6_missing_usage_fields_amended (j : Job)
    (h : j.resources_used = some ⟨none, none, none⟩) :
    convert_walltime j j.Resource_List =
      convert_walltime { j with resources_used := none } j.Resource_List ∧
    convert_cpu_efficiency j j.Resource_List =
      convert_cpu_efficiency { j with resources_used := none } j.Resource_List ∧
    convert_mem_efficiency j j.Resource_List =
      convert_mem_efficiency { j with resources_used := none } j.Resource_List ∧
    ∀ (jid u q st n : String) (sp1 : Spacing),
      jobPred u q st n (normJob j) = .ok true →
      updateSpacing (initSpacing u q) (normJob j) = .ok sp1 →
      filter_json [(jid, j)] u q st n =
        .ok ([(jid, normJob j)], sp1, [(jid, normJob j)]) := by
  refine ⟨?_, ?_, ?_, ?_⟩
  · simp [convert_walltime, h]
  · simp [convert_cpu_efficiency, h]
  · simp [convert_mem_efficiency, memUsedVal, h]
  · intro jid u q st n sp1 hpred hup
    simp [filter_json, filterGo, hpred, hup]

/-- Witness for C6: the concrete record `jobEmptyUse` matches the empty
criteria and is retained with the usual zero-usage widths. -/
theorem c6_witness :
    filter_json [("j6", jobEmptyUse)] "" "" "" "" =
      .ok ([("j6", jobEmptyUse)], spacingOneJob, [("j6", jobEmptyUse)]) :=
  (c6_missing_usage_fields_amended jobEmptyUse rfl).2.2.2 "j6" "" "" "" ""
    spacingOneJob (by rfl) (by rfl)

/-- Claim C7 (confirmed): `generate_table` is deterministic — two
invocations on the same filtered mapping and the same width values yield
byte-identical output — and its only effect on the width table is the
uniform `+ 1` padding applied once: the table the caller sees afterwards
is exactly the input widths each increased by one. -/
theorem c7_render_deterministic (jobs : List (String × Job)) (sp : Spacing)
    (o1 o2 : String) (r1 r2 : Spacing)
    (h1 : generate_table jobs sp = some (o1, r1))
    (h2 : generate_table jobs sp = some (o2, r2)) :
    o1 = o2 ∧ r1 = r2 ∧
    r1.user = sp.user + 1 ∧ r1.queue = sp.queue + 1 ∧ r1.state = sp.state + 1 ∧
    r1.name = sp.name + 1 ∧ r1.mem = sp.mem + 1 ∧ r1.ncpus = sp.ncpus + 1 ∧
    r1.jobid = sp.jobid + 1 ∧ r1.walltime = sp.walltime + 1 ∧
    r1.cpu_efficiency = sp.cpu_efficiency + 1 ∧
    r1.mem_efficiency = sp.mem_efficiency + 1 := by
  rw [h1] at h2
  simp only [Option.some.injEq, Prod.mk.injEq] at h2
  obtain ⟨ho, hr⟩ := h2
  simp only [generate_table] at h1
  cases hb : tableRows (addOneSp sp) 0 jobs with
  | none => simp [hb] at h1
  | some body =>
    simp only [hb, Option.some.injEq, Prod.mk.injEq] at h1
    obtain ⟨_, hr1⟩ := h1
    subst hr1
    exact ⟨ho, hr, rfl, rfl, rfl, rfl, rfl, rfl, rfl, rfl, rfl, rfl⟩

/-- Witness for C7: rendering the empty filtered mapping with the default
seed widths succeeds twice with the same output, and the returned widths
are the seeds plus one. -/
theorem c7_witness :
    headerStr (addOneSp (initSpacing "" "")) ++ "" =
      headerStr (addOneSp (initSpacing "" "")) ++ "" ∧
    addOneSp (initSpacing "" "") = addOneSp (initSpacing "" "") ∧
    (addOneSp (initSpacing "" "")).user = (initSpacing "" "").user + 1 ∧
    (addOneSp (initSpacing "" "")).queue = (initSpacing "" "").queue + 1 ∧
    (addOneSp (initSpacing "" "")).state = (initSpacing "" "").state + 1 ∧
    (addOneSp (initSpacing "" "")).name = (initSpacing "" "").name + 1 ∧
    (addOneSp (initSpacing "" "")).mem = (initSpacing "" "").mem + 1 ∧
    (addOneSp (initSpacing "" "")).ncpus = (initSpacing "" "").ncpus + 1 ∧
    (addOneSp (initSpacing "" "")).jobid = (initSpacing "" "").jobid + 1 ∧
    (addOneSp (initSpacing "" "")).walltime = (initSpacing "" "").walltime + 1 ∧
    (addOneSp (initSpacing "" "")).cpu_efficiency =
      (initSpacing "" "").cpu_efficiency + 1 ∧
    (addOneSp (initSpacing "" "")).mem_efficiency =
      (initSpacing "" "").mem_efficiency + 1 :=
  c7_render_deterministic [] (initSpacing "" "")
    (headerStr (addOneSp (initSpacing "" "")) ++ "")
    (headerStr (addOneSp (initSpacing "" "")) ++ "")
    (addOneSp (initSpacing "" "")) (addOneSp (initSpacing "" ""))
    (by rfl) (by rfl)

theorem getA_setA_eq (l : List (String × Nat)) (k : String) (v : Nat) :
    getA (setA l k v) k = some v := by
  induction l with
  | nil => simp [setA, getA]
  | cons p t ih =>
    obtain ⟨k0, v0⟩ := p
    by_cases hk : (k0 == k) = true
    · simp [setA, hk, getA]
    · simp only [setA, hk, Bool.false_eq_true, if_false, getA]
      exact ih

theorem getA_setA_ne (l : List (String × Nat)) (k k' : String) (v : Nat)
    (h : k ≠ k') : getA (setA l k v) k' = getA l k' := by
  induction l with
  | nil =>
    simp [setA, getA, h]
  | cons p t ih =>
    obtain ⟨k0, v0⟩ := p
    by_cases hk : (k0 == k) = true
    · have hk0 : k0 = k := by simpa using hk
      subst hk0
      simp [setA, getA, h]
    · simp only [setA, hk, Bool.false_eq_true, if_false, getA]
      by_cases hq : (k0 == k') = true
      · simp [hq]
      · simp only [hq, Bool.false_eq_true, if_false]
        exact ih

theorem getA_queueFold (jobs : List (String × Job)) :
    ∀ (acc : List (String × Nat)) (k : String),
      (getA (jobs.foldl (fun a p => queueStep a p.2) acc) k).getD 0 =
      (getA acc k).getD 0 + (jobs.filter (fun p => p.2.queue == k)).length := by
  induction jobs with
  | nil => intro acc k; simp
  | cons p rest ih =>
    intro acc k
    have hstep : (getA (queueStep acc p.2) k).getD 0 =
        (getA acc k).getD 0 + (if (p.2.queue == k) = true then 1 else 0) := by
      unfold queueStep
      by_cases hqk : p.2.queue = k
      · subst hqk
        cases hg : getA acc p.2.queue with
        | none => simp [hg, getA_setA_eq]
        | some v => simp [hg, getA_setA_eq]
      · have hbeq : (p.2.queue == k) = false := by simpa using hqk
        cases hg : getA acc p.2.queue with
        | none => simp [hg, hbeq, getA_setA_ne acc p.2.queue k 1 hqk]
        | some v => simp [hg, hbeq, getA_setA_ne acc p.2.queue k (v + 1) hqk]
    simp only [List.foldl_cons, List.filter_cons]
    rw [ih (queueStep acc p.2) k, hstep]
    by_cases hp : (p.2.queue == k) = true
    · simp only [hp, if_true, List.length_cons]
      omega
    · simp only [hp, Bool.false_eq_true, if_false]
      omega

theorem stateFold_counts (jobs : List (String × Job)) :
    ∀ (r q o : Nat),
      stateFold jobs [("R", r), ("Q", q), ("Other", o)] =
        some [("R", r + (jobs.filter (fun p => p.2.job_state == some "R")).length),
              ("Q", q + (jobs.filter (fun p => p.2.job_state == some "Q")).length),
              ("Other", o + (jobs.filter (fun p =>
                !(p.2.job_state == some "R") && !(p.2.job_state == some "Q"))).length)] := by
  induction jobs with
  | nil =>
    intro r q o
    simp [stateFold]
  | cons p rest ih =>
    intro r q o
    cases hjs : p.2.job_state with
    | none =>
      have hstep : stateStep [("R", r), ("Q", q), ("Other", o)] p.2 =
          some [("R", r), ("Q", q), ("Other", o + 1)] := by
        unfold stateStep
        rw [hjs]
        rfl
      simp only [stateFold, hstep]
      rw [ih r q (o + 1)]
      simp [List.filter_cons, hjs]
      omega
    | some s =>
      by_cases hR : s = "R"
      · subst hR
        have hstep : stateStep [("R", r), ("Q", q), ("Other", o)] p.2 =
            some [("R", r + 1), ("Q", q), ("Other", o)] := by
          unfold stateStep
          rw [hjs]
          rfl
        simp only [stateFold, hstep]
        rw [ih (r + 1) q o]
        simp [List.filter_cons, hjs]
        omega
      · by_cases hQ : s = "Q"
        · subst hQ
          have hstep : stateStep [("R", r), ("Q", q), ("Other", o)] p.2 =
              some [("R", r), ("Q", q + 1), ("Other", o)] := by
            unfold stateStep
            rw [hjs]
            rfl
          simp only [stateFold, hstep]
          rw [ih r (q + 1) o]
          simp [List.filter_cons, hjs]
          omega
        · by_cases hO : s = "Other"
          · subst hO
            have hstep : stateStep [("R", r), ("Q", q), ("Other", o)] p.2 =
                some [("R", r), ("Q", q), ("Other", o + 1)] := by
              unfold stateStep
              rw [hjs]
              rfl
            simp only [stateFold, hstep]
            rw [ih r q (o + 1)]
            simp [List.filter_cons, hjs]
            omega
          · have h1 : ("R" == s) = false := beq_eq_false_iff_ne.mpr (fun hh => hR hh.symm)
            have h2 : ("Q" == s) = false := beq_eq_false_iff_ne.mpr (fun hh => hQ hh.symm)
            have h3 : ("Other" == s) = false := beq_eq_false_iff_ne.mpr (fun hh => hO hh.symm)
            have hstep : stateStep [("R", r), ("Q", q), ("Other", o)] p.2 =
                some [("R", r), ("Q", q), ("Other", o + 1)] := by
              unfold stateStep
              rw [hjs]
              simp [getA, setA, h1, h2, h3]
            have hfR : (p.2.job_state == some "R") = false := by
              rw [hjs]
              exact beq_eq_false_iff_ne.mpr (by simp [hR])
            have hfQ : (p.2.job_state == some "Q") = false := by
              rw [hjs]
              exact beq_eq_false_iff_ne.mpr (by simp [hQ])
            simp only [stateFold, hstep]
            rw [ih r q (o + 1)]
            simp [List.filter_cons, hfR, hfQ]
            omega

/-- Claim C8 (counterexample): `summarize_json` computes its per-queue and
per-state counts over the module-global `json_data` (second argument of
the embedding), not over the mapping passed as its argument: called with a
filtered mapping whose only queue is `alpha` while the global holds one
`beta`/`Q` job, the summary line reports `beta` and `Q`, and no `alpha`
count, although the argument contains the `alpha` job. -/
theorem c8_counterexample :
    summarize_json
        [("a", ⟨"x@y", .str "n", "alpha", some "R", ⟨"1kb", 1, "1:00"⟩, none⟩)]
        [("b", ⟨"x@y", .str "n", "beta", some "Q", ⟨"1kb", 1, "1:00"⟩, none⟩)] =
      some "NumberOfJobs:1  JobsPerQueue:\x7b\x27beta\x27: 1\x7d  JobStates:\x7b\x27R\x27: 0, \x27Q\x27: 1, \x27Other\x27: 0\x7d" ∧
    (getA (queueCounts
        [("a", ⟨"x@y", .str "n", "alpha", some "R", ⟨"1kb", 1, "1:00"⟩, none⟩)])
      "alpha").getD 0 = 1 ∧
    (getA (queueCounts
        [("b", ⟨"x@y", .str "n", "beta", some "Q", ⟨"1kb", 1, "1:00"⟩, none⟩)])
      "alpha").getD 0 = 0 := by
  exact ⟨by rfl, by rfl, by rfl⟩

/-- Claim C8 as amended: the counting loop of `summarize_json` iterates
the module-global `json_data`; in the program's flow `__main__` rebinds
that global to the filtered mapping before the call, and in that situation
the summary never fails and reports the total job count, per-queue counts,
and per-state counts of exactly the filtered mapping, with every job whose
state is not literally `"R"` or `"Q"` — unrecognized codes, states with
trailing whitespace, and missing states alike — counted under the
catch-all `"Other"` key. -/
theorem c8_summarize_amended (F : List (String × Job)) :
    ∃ sc,
      stateFold F [("R", 0), ("Q", 0), ("Other", 0)] = some sc ∧
      sc = [("R", (F.filter (fun p => p.2.job_state == some "R")).length),
            ("Q", (F.filter (fun p => p.2.job_state == some "Q")).length),
            ("Other", (F.filter (fun p =>
              !(p.2.job_state == some "R") && !(p.2.job_state == some "Q"))).length)] ∧
      summarize_json F F =
        some ("NumberOfJobs:" ++ toString F.length ++
              "  JobsPerQueue:" ++ dictRepr (queueCounts F) ++
              "  JobStates:" ++ dictRepr sc) ∧
      ∀ k, (getA (queueCounts F) k).getD 0 =
        (F.filter (fun p => p.2.queue == k)).length := by
  have hs := stateFold_counts F 0 0 0
  simp only [Nat.zero_add] at hs
  refine ⟨_, hs, rfl, ?_, ?_⟩
  · simp only [summarize_json, hs]
  · intro k
    simpa [getA] using getA_queueFold F [] k

end Que
